import Mathlib

/-!
# Shallow embedding of the `futures-time` combinators

This file embeds the poll-state machines of the `futures-time` crate
(`src/future/timeout.rs`, `src/future/timeout_at.rs`, `src/stream/timeout.rs`,
`src/stream/timeout_at.rs`, `src/stream/debounce.rs`, `src/stream/throttle.rs`,
`src/future/delay.rs`, `src/stream/delay.rs`, `src/stream/delay_until.rs`,
`src/future/park.rs`) and proves properties of their `poll` / `poll_next`
implementations.

Embedding conventions:

* `Poll α` mirrors `core::task::Poll`.
* A wrapped future is a *script* `List (Poll α)`: the responses its successive
  polls return. A wrapped stream is a script `List (Poll (Option α))`
  (`ready none` = exhaustion, as in Rust). Polling consumes the head of the
  script; an empty script answers `pending`. Because polling consumes the
  script, "the combinator did not poll the wrapped value" is visible as "the
  script component of the state is unchanged".
* `async_io::Timer` is modelled by its absolute deadline: `Timer::after(dur)`
  created at instant `now` has deadline `now + dur`; `Timer::at(instant)` has
  that instant as its deadline; polling it at instant `now` reports fired iff
  `deadline ≤ now` (async-io fires when `Instant::now() >= when`). Every
  combinator either rearms its timer after observing a firing or stops
  polling it, so the post-firing behaviour of a timer is not observable and
  the model leaves a polled timer unchanged. Instants are `Nat`.
* Each call to `poll` takes the current instant `now` (used by the timer
  checks and by the `Timer::after` rearms the code performs during the poll).
* `panic!` / a failed `assert!` is modelled by the poll function returning
  `none`; a normal return is `some (output, next state)`.
* `io::Result<T>` with its single `TimedOut` error kind is `Except Unit`.
-/

namespace FuturesTime

/-- `core::task::Poll`. -/
inductive Poll (α : Type) where
  | ready : α → Poll α
  | pending : Poll α
deriving Repr, DecidableEq

/-- Consume one poll response from a script; an exhausted script answers
`pending`. -/
def pull {α : Type} : List (Poll α) → Poll α × List (Poll α)
  | [] => (.pending, [])
  | p :: rest => (p, rest)

/-- `async_io::Timer`, reduced to its absolute deadline. -/
structure Timer where
  deadline : Nat
deriving Repr, DecidableEq

/-- `Timer::after(dur)` armed at instant `now`. -/
def Timer.after (now dur : Nat) : Timer :=
  ⟨now + dur⟩

/-- `Timer::at(instant)`. -/
def Timer.atDeadline (d : Nat) : Timer :=
  ⟨d⟩

/-- Polling a timer at instant `now`: fired iff the deadline has been
reached. -/
def Timer.fired (t : Timer) (now : Nat) : Bool :=
  t.deadline ≤ now

/-! ## `src/future/timeout.rs` -/

/-- The `Timeout<F>` future: wrapped future script, deadline timer, and the
`completed` flag. -/
structure Timeout (α : Type) where
  future : List (Poll α)
  delay : Timer
  completed : Bool
deriving Repr, DecidableEq

/-- `Timeout::new(future, dur)` called at instant `now`. -/
def Timeout.new {α : Type} (future : List (Poll α)) (now dur : Nat) : Timeout α :=
  ⟨future, Timer.after now dur, false⟩

/-- One call to `<Timeout as Future>::poll` at instant `now`.
`none` models the `assert!(!self.completed)` panic. -/
def Timeout.poll {α : Type} (s : Timeout α) (now : Nat) :
    Option (Poll (Except Unit α) × Timeout α) :=
  if s.completed then none
  else
    match pull s.future with
    | (.ready v, rest) =>
      some (.ready (.ok v), { s with future := rest, completed := true })
    | (.pending, rest) =>
      if s.delay.fired now then
        some (.ready (.error ()), { s with future := rest, completed := true })
      else
        some (.pending, { s with future := rest })

/-! ## `src/future/timeout_at.rs` -/

/-- The `TimeoutAt<F>` future: wrapped future script and deadline timer.
Note: unlike `Timeout`, the source has no `completed` flag. -/
structure TimeoutAt (α : Type) where
  future : List (Poll α)
  delay : Timer
deriving Repr, DecidableEq

/-- `TimeoutAt::new(future, deadline)`. -/
def TimeoutAt.new {α : Type} (future : List (Poll α)) (deadline : Nat) : TimeoutAt α :=
  ⟨future, Timer.atDeadline deadline⟩

/-- One call to `<TimeoutAt as Future>::poll` at instant `now`. -/
def TimeoutAt.poll {α : Type} (s : TimeoutAt α) (now : Nat) :
    Poll (Except Unit α) × TimeoutAt α :=
  match pull s.future with
  | (.ready v, rest) => (.ready (.ok v), { s with future := rest })
  | (.pending, rest) =>
    if s.delay.fired now then (.ready (.error ()), { s with future := rest })
    else (.pending, { s with future := rest })

/-! ## `src/stream/timeout.rs` -/

/-- The stream `Timeout<S>`: wrapped stream script, deadline timer and the
stored `duration`. -/
structure StreamTimeout (α : Type) where
  stream : List (Poll (Option α))
  delay : Timer
  duration : Nat
deriving Repr, DecidableEq

/-- `Timeout::new(stream, dur)` called at instant `now`. -/
def StreamTimeout.new {α : Type} (stream : List (Poll (Option α))) (now dur : Nat) :
    StreamTimeout α :=
  ⟨stream, Timer.after now dur, dur⟩

/-- One call to `<Timeout as Stream>::poll_next` at instant `now`.
The source rearms `delay` with `Timer::after(duration)` after *every*
`Ready` result (item, exhaustion or error); the early `return` on the
pending/pending path skips the rearm. -/
def StreamTimeout.poll_next {α : Type} (s : StreamTimeout α) (now : Nat) :
    Poll (Option (Except Unit α)) × StreamTimeout α :=
  match pull s.stream with
  | (.ready (some v), rest) =>
    (.ready (some (.ok v)), { s with stream := rest, delay := Timer.after now s.duration })
  | (.ready none, rest) =>
    (.ready none, { s with stream := rest, delay := Timer.after now s.duration })
  | (.pending, rest) =>
    if s.delay.fired now then
      (.ready (some (.error ())),
        { s with stream := rest, delay := Timer.after now s.duration })
    else
      (.pending, { s with stream := rest })

/-! ## `src/stream/timeout_at.rs` -/

/-- The stream `TimeoutAt<S>`: wrapped stream script, deadline timer and the
stored absolute `deadline`. -/
structure StreamTimeoutAt (α : Type) where
  stream : List (Poll (Option α))
  delay : Timer
  deadline : Nat
deriving Repr, DecidableEq

/-- `TimeoutAt::new(stream, deadline)`. -/
def StreamTimeoutAt.new {α : Type} (stream : List (Poll (Option α))) (deadline : Nat) :
    StreamTimeoutAt α :=
  ⟨stream, Timer.atDeadline deadline, deadline⟩

/-- One call to `<TimeoutAt as Stream>::poll_next` at instant `now`.
After every `Ready` result the source rearms with `Timer::at(deadline)`,
i.e. at the *same* absolute deadline it was constructed with. -/
def StreamTimeoutAt.poll_next {α : Type} (s : StreamTimeoutAt α) (now : Nat) :
    Poll (Option (Except Unit α)) × StreamTimeoutAt α :=
  match pull s.stream with
  | (.ready (some v), rest) =>
    (.ready (some (.ok v)), { s with stream := rest, delay := Timer.atDeadline s.deadline })
  | (.ready none, rest) =>
    (.ready none, { s with stream := rest, delay := Timer.atDeadline s.deadline })
  | (.pending, rest) =>
    if s.delay.fired now then
      (.ready (some (.error ())),
        { s with stream := rest, delay := Timer.atDeadline s.deadline })
    else
      (.pending, { s with stream := rest })

/-! ## `src/stream/debounce.rs` -/

/-- The `Debounce<S>` stream: wrapped stream script, quiet-period timer, the
`boundary` duration, the item `slot`, and the `exhausted` / `done` flags. -/
structure Debounce (α : Type) where
  stream : List (Poll (Option α))
  timer : Timer
  boundary : Nat
  slot : Option α
  exhausted : Bool
  done : Bool
deriving Repr, DecidableEq

/-- `Debounce::new(stream, boundary)` called at instant `now`. -/
def Debounce.new {α : Type} (stream : List (Poll (Option α))) (now boundary : Nat) :
    Debounce α :=
  ⟨stream, Timer.after now boundary, boundary, none, false, false⟩

/-- One call to `<Debounce as Stream>::poll_next` at instant `now`.
`none` models the `panic!("stream polled after completion")`. On a fresh
item the source stores it in the slot, rearms the timer from now, and then
polls that freshly armed timer (which is already fired when `boundary = 0`). -/
def Debounce.poll_next {α : Type} (s : Debounce α) (now : Nat) :
    Option (Poll (Option α) × Debounce α) :=
  if s.done then none
  else if s.exhausted then some (.ready none, { s with done := true })
  else
    match pull s.stream with
    | (.ready (some v), rest) =>
      let t := Timer.after now s.boundary
      if t.fired now then
        some (.ready (some v), { s with stream := rest, timer := t, slot := none })
      else
        some (.pending, { s with stream := rest, timer := t, slot := some v })
    | (.ready none, rest) =>
      match s.slot with
      | some v =>
        some (.ready (some v), { s with stream := rest, slot := none, exhausted := true })
      | none =>
        some (.ready none, { s with stream := rest, exhausted := true, done := true })
    | (.pending, rest) =>
      if s.timer.fired now then
        match s.slot with
        | some v => some (.ready (some v), { s with stream := rest, slot := none })
        | none => some (.pending, { s with stream := rest })
      else
        some (.pending, { s with stream := rest })

/-! ## `src/future/delay.rs` -/

/-- The future `Delay<F, D>`: wrapped future script, the generic deadline
future's script, and the `completed` flag. The deadline is an arbitrary
future (`D: Future`), so it is a script as well. -/
structure Delay (α : Type) where
  future : List (Poll α)
  deadline : List (Poll Unit)
  completed : Bool
deriving Repr, DecidableEq

/-- `Delay::new(future, deadline)`. -/
def Delay.new {α : Type} (future : List (Poll α)) (deadline : List (Poll Unit)) : Delay α :=
  ⟨future, deadline, false⟩

/-- One call to `<Delay as Future>::poll`. `none` models the
`assert!(!self.completed)` panic. The deadline future is polled first on
*every* call; the wrapped future is polled only when the deadline polled
ready on this very call. -/
def Delay.poll {α : Type} (s : Delay α) : Option (Poll α × Delay α) :=
  if s.completed then none
  else
    match pull s.deadline with
    | (.pending, drest) => some (.pending, { s with deadline := drest })
    | (.ready _, drest) =>
      match pull s.future with
      | (.ready v, frest) =>
        some (.ready v, { s with deadline := drest, future := frest, completed := true })
      | (.pending, frest) =>
        some (.pending, { s with deadline := drest, future := frest })

/-! ## `src/task/sleep.rs`

`Sleep` is the future produced by `Duration::into_future()`, i.e. the
deadline future the crate itself passes to `Delay::new` in
`FutureExt::delay(duration)`. -/

/-- The `Sleep` future: timer, `completed` flag, stored duration. -/
structure Sleep where
  timer : Timer
  completed : Bool
  dur : Nat
deriving Repr, DecidableEq

/-- `task::sleep(dur)` called at instant `now`. -/
def sleep (now dur : Nat) : Sleep :=
  ⟨Timer.after now dur, false, dur⟩

/-- One call to `<Sleep as Future>::poll` at instant `now`; the output is the
timer's firing instant. `none` models the
`assert!(!self.completed, "future polled after completing")` panic. -/
def Sleep.poll (s : Sleep) (now : Nat) : Option (Poll Nat × Sleep) :=
  if s.completed then none
  else if s.timer.fired now then some (.ready s.timer.deadline, { s with completed := true })
  else some (.pending, s)

/-! ## `src/stream/delay.rs` -/

/-- The two states of the stream `Delay<S>`. -/
inductive StreamDelayState where
  | timer : StreamDelayState
  | streaming : StreamDelayState
deriving Repr, DecidableEq

/-- The stream `Delay<S>`: wrapped stream script, one-shot timer and state. -/
structure StreamDelay (α : Type) where
  stream : List (Poll (Option α))
  timer : Timer
  state : StreamDelayState
deriving Repr, DecidableEq

/-- `Delay::new(stream, dur)` called at instant `now`. -/
def StreamDelay.new {α : Type} (stream : List (Poll (Option α))) (now dur : Nat) :
    StreamDelay α :=
  ⟨stream, Timer.after now dur, .timer⟩

/-- One call to `<Delay as Stream>::poll_next` at instant `now`. In state
`Timer` a pending timer returns pending without touching the stream; a fired
timer switches to `Streaming` and polls the stream on the same call. -/
def StreamDelay.poll_next {α : Type} (s : StreamDelay α) (now : Nat) :
    Poll (Option α) × StreamDelay α :=
  match s.state with
  | .timer =>
    if s.timer.fired now then
      match pull s.stream with
      | (p, rest) => (p, { s with stream := rest, state := .streaming })
    else
      (.pending, s)
  | .streaming =>
    match pull s.stream with
    | (p, rest) => (p, { s with stream := rest })

/-! ## `src/stream/delay_until.rs` -/

/-- The stream `DelayUntil<S>`: wrapped stream script, deadline timer and the
`delay_done` flag. -/
structure StreamDelayUntil (α : Type) where
  stream : List (Poll (Option α))
  delay : Timer
  delay_done : Bool
deriving Repr, DecidableEq

/-- `DelayUntil::new(stream, deadline)`. -/
def StreamDelayUntil.new {α : Type} (stream : List (Poll (Option α))) (deadline : Nat) :
    StreamDelayUntil α :=
  ⟨stream, Timer.atDeadline deadline, false⟩

/-- One call to `<DelayUntil as Stream>::poll_next` at instant `now`. -/
def StreamDelayUntil.poll_next {α : Type} (s : StreamDelayUntil α) (now : Nat) :
    Poll (Option α) × StreamDelayUntil α :=
  if s.delay_done then
    match pull s.stream with
    | (p, rest) => (p, { s with stream := rest })
  else
    if s.delay.fired now then
      match pull s.stream with
      | (p, rest) => (p, { s with stream := rest, delay_done := true })
    else
      (.pending, s)

/-! ## `src/stream/throttle.rs` -/

/-- The `State` enum of `Throttle`. -/
inductive ThrottleState where
  | streaming : Nat → ThrottleState
  | streamDone : ThrottleState
  | allDone : ThrottleState
deriving Repr, DecidableEq

/-- The `Throttle<S, I>` stream: wrapped stream script, generic interval
stream script (its item type is irrelevant, so `Unit`), state and budget. -/
structure Throttle (α : Type) where
  stream : List (Poll (Option α))
  interval : List (Poll (Option Unit))
  state : ThrottleState
  budget : Nat
deriving Repr, DecidableEq

/-- `Throttle::new(stream, interval)`: state `Streaming(0)`, budget `1`. -/
def Throttle.new {α : Type} (stream : List (Poll (Option α)))
    (interval : List (Poll (Option Unit))) : Throttle α :=
  ⟨stream, interval, .streaming 0, 1⟩

/-- The tight sub-loop of `Throttle::poll_next` in state `Streaming(count)`:
poll the wrapped stream until it answers `Pending` (or the script runs out,
which this model treats as pending) or `Ready(None)`. An item is kept in the
local `slot` (and the counter bumped) only while `count < budget`; later
items of the window are discarded. Returns the remaining stream script, the
final counter, the slot, and whether `Ready(None)` was observed. -/
def throttleDrain {α : Type} (budget : Nat) :
    Nat → Option α → List (Poll (Option α)) →
      List (Poll (Option α)) × Nat × Option α × Bool
  | count, slot, [] => ([], count, slot, false)
  | count, slot, .pending :: rest => (rest, count, slot, false)
  | count, slot, .ready none :: rest => (rest, count, slot, true)
  | count, slot, .ready (some v) :: rest =>
    if count < budget then throttleDrain budget (count + 1) (some v) rest
    else throttleDrain budget count slot rest

/-- One call to `<Throttle as Stream>::poll_next`. `none` models the
`panic!("stream polled after completion")` in state `AllDone`. In state
`Streaming` the stream is drained first, then the interval is polled
unconditionally; if the interval polled ready while the state is still
`Streaming`, the per-window counter is reset to zero. -/
def Throttle.poll_next {α : Type} (s : Throttle α) :
    Option (Poll (Option α) × Throttle α) :=
  match s.state with
  | .streaming count =>
    match throttleDrain s.budget count none s.stream with
    | (rest, cnt, slot, sdone) =>
      let st1 : ThrottleState := if sdone then .streamDone else .streaming cnt
      let st2 : ThrottleState :=
        match (pull s.interval).1, st1 with
        | .ready _, .streaming _ => .streaming 0
        | _, st => st
      let out : Poll (Option α) :=
        match slot with
        | some item => .ready (some item)
        | none => .pending
      some (out, { s with stream := rest, interval := (pull s.interval).2, state := st2 })
  | .streamDone => some (.ready none, { s with state := .allDone })
  | .allDone => none

/-! ## `src/future/park.rs` -/

/-- The `Parker` token carried on the channel. -/
inductive Parker where
  | park : Parker
  | unpark : Parker
deriving Repr, DecidableEq

/-- The `State` enum of `Park`. -/
inductive ParkState where
  | active : ParkState
  | suspended : ParkState
  | noChannel : ParkState
  | completed : ParkState
deriving Repr, DecidableEq

/-- The `Park<F>` future: wrapped future script, the receiver's script
(`ready none` = channel closed) and the state. -/
structure Park (α : Type) where
  future : List (Poll α)
  receiver : List (Poll (Option Parker))
  state : ParkState
deriving Repr, DecidableEq

/-- `Park::new(future, receiver)`: the wrapper starts out `Suspended`. -/
def Park.new {α : Type} (future : List (Poll α)) (receiver : List (Poll (Option Parker))) :
    Park α :=
  ⟨future, receiver, .suspended⟩

/-- The `State::Active` arm of the `Park::poll` loop: check the receiver once
(a `Park` token re-suspends; anything else, including a closed or pending
channel, is ignored), then poll the wrapped future. -/
def Park.activeStep {α : Type} (s : Park α) : Option (Poll α × Park α) :=
  match pull s.receiver with
  | (.ready (some .park), rrest) =>
    some (.pending, { s with receiver := rrest, state := .suspended })
  | (_, rrest) =>
    match pull s.future with
    | (.ready v, frest) =>
      some (.ready v, { s with receiver := rrest, future := frest, state := .completed })
    | (.pending, frest) =>
      some (.pending, { s with receiver := rrest, future := frest })

/-- The `State::NoChannel` arm of the `Park::poll` loop: poll the wrapped
future unconditionally. -/
def Park.noChannelStep {α : Type} (s : Park α) : Option (Poll α × Park α) :=
  match pull s.future with
  | (.ready v, frest) =>
    some (.ready v, { s with future := frest, state := .completed })
  | (.pending, frest) =>
    some (.pending, { s with future := frest })

/-- One call to `<Park as Future>::poll`. `none` models the
`panic!("future polled after completing")`. In state `Suspended` the
receiver is polled: pending or a `Park` token return pending without
touching the wrapped future; an `Unpark` token switches to `Active` and a
closed channel to `NoChannel`, and the loop continues in the new state on
the same call. -/
def Park.poll {α : Type} (s : Park α) : Option (Poll α × Park α) :=
  match s.state with
  | .suspended =>
    match pull s.receiver with
    | (.pending, rrest) => some (.pending, { s with receiver := rrest })
    | (.ready (some .park), rrest) => some (.pending, { s with receiver := rrest })
    | (.ready (some .unpark), rrest) =>
      Park.activeStep { s with receiver := rrest, state := .active }
    | (.ready none, rrest) =>
      Park.noChannelStep { s with receiver := rrest, state := .noChannel }
  | .active => Park.activeStep s
  | .noChannel => Park.noChannelStep s
  | .completed => none

/-! ## Trace helpers

Derived (specification-side) views of the combinator runs, used to state the
window / suspension properties. -/

/-- The items a single `Throttle` poll consumes from a stream script: the
values of the leading `ready (some _)` entries, up to the first `pending`,
`ready none`, or end of script. -/
def consumedItems {α : Type} : List (Poll (Option α)) → List α
  | .ready (some v) :: rest => v :: consumedItems rest
  | _ => []

/-- The stream script left over after a single `Throttle` drain. -/
def afterDrain {α : Type} : List (Poll (Option α)) → List (Poll (Option α))
  | .ready (some _) :: rest => afterDrain rest
  | .pending :: rest => rest
  | .ready none :: rest => rest
  | [] => []

/-- Whether a single `Throttle` drain observes the stream's exhaustion. -/
def consumedDone {α : Type} : List (Poll (Option α)) → Bool
  | .ready (some _) :: rest => consumedDone rest
  | .ready none :: _ => true
  | _ => false

/-- Whether the next `Throttle` poll observes an interval tick (the interval
is polled only in the `Streaming` state, and `pull` of its script answers
ready). -/
def tickSeen {α : Type} (s : Throttle α) : Bool :=
  match s.state with
  | .streaming _ =>
    match s.interval with
    | .ready _ :: _ => true
    | _ => false
  | _ => false

/-- The source items the next `Throttle` poll consumes. -/
def arrivals {α : Type} (s : Throttle α) : List α :=
  match s.state with
  | .streaming _ => consumedItems s.stream
  | _ => []

/-- Run `Throttle::poll_next` until the end of the current window: the first
poll that observes an interval tick closes the window (the counter reset it
performs takes effect only after that poll's drain). Returns the source
items that arrived during the window, the items the throttle emitted during
the window, and the state after the closing poll (`none` if the budget of
`n` polls ran out, or on a panic). -/
def windowRun {α : Type} : Throttle α → Nat → List α × List α × Option (Throttle α)
  | _, 0 => ([], [], none)
  | s, n + 1 =>
    match Throttle.poll_next s with
    | none => ([], [], none)
    | some (out, s') =>
      let its := arrivals s
      let ems : List α := match out with | .ready (some v) => [v] | _ => []
      if tickSeen s then (its, ems, some s')
      else
        match windowRun s' n with
        | (its2, ems2, sc) => (its ++ its2, ems ++ ems2, sc)

/-- Whether a receiver response leaves `Park` suspended: the channel is open
but empty, or it delivered a `Park` token. -/
def quietPoll : Poll (Option Parker) → Bool
  | .pending => true
  | .ready (some .park) => true
  | _ => false

/-- Run `Park::poll` `n` times, collecting the outputs and the final state
(`none` after a panic). -/
def Park.runOuts {α : Type} : Park α → Nat → List (Poll α) × Option (Park α)
  | s, 0 => ([], some s)
  | s, n + 1 =>
    match Park.poll s with
    | none => ([], none)
    | some (out, s') =>
      match Park.runOuts s' n with
      | (outs, sf) => (out :: outs, sf)

/-! ## Claims -/

/-- C1: for the future combinators `Timeout` and `TimeoutAt`, every poll polls
the wrapped future before the deadline timer; whenever the wrapped future
resolves on a poll, the combinator returns success carrying the wrapped
future's output unchanged, even if the deadline has also elapsed on that same
poll (no timer hypothesis appears in the success conjuncts); a `TimedOut`
failure is returned only on a poll where the wrapped future is pending and
the deadline timer has fired. The "wrapped future polled on every poll"
part shows as the future script being consumed by every poll. -/
theorem c1_timeout_first_resolution_wins (α : Type) (sT : Timeout α) (sA : TimeoutAt α)
    (now : Nat) (hc : sT.completed = false) :
    ((∀ v rest, sT.future = .ready v :: rest →
        Timeout.poll sT now
          = some (.ready (.ok v), { sT with future := rest, completed := true })) ∧
      ((Timeout.poll sT now).map (fun r => r.2.future) = some (pull sT.future).2) ∧
      (∀ s', Timeout.poll sT now = some (.ready (.error ()), s') →
        (pull sT.future).1 = .pending ∧ sT.delay.fired now = true)) ∧
    ((∀ v rest, sA.future = .ready v :: rest →
        TimeoutAt.poll sA now = (.ready (.ok v), { sA with future := rest })) ∧
      ((TimeoutAt.poll sA now).2.future = (pull sA.future).2) ∧
      (∀ s', TimeoutAt.poll sA now = (.ready (.error ()), s') →
        (pull sA.future).1 = .pending ∧ sA.delay.fired now = true)) := by
  obtain ⟨fut, delay, completed⟩ := sT
  obtain ⟨futA, delayA⟩ := sA
  simp only at hc
  subst hc
  refine ⟨⟨?_, ?_, ?_⟩, ?_, ?_, ?_⟩
  · intro v rest hf
    simp only at hf
    subst hf
    simp [Timeout.poll, pull]
  · cases fut with
    | nil => by_cases hf : Timer.fired delay now <;> simp [Timeout.poll, pull, hf]
    | cons p rest =>
      cases p with
      | ready v => simp [Timeout.poll, pull]
      | pending => by_cases hf : Timer.fired delay now <;> simp [Timeout.poll, pull, hf]
  · intro s' h
    cases fut with
    | nil =>
      by_cases hf : Timer.fired delay now <;> simp [Timeout.poll, pull, hf] at h ⊢
    | cons p rest =>
      cases p with
      | ready v => simp [Timeout.poll, pull] at h
      | pending =>
        by_cases hf : Timer.fired delay now <;> simp [Timeout.poll, pull, hf] at h ⊢
  · intro v rest hf
    simp only at hf
    subst hf
    simp [TimeoutAt.poll, pull]
  · cases futA with
    | nil => by_cases hf : Timer.fired delayA now <;> simp [TimeoutAt.poll, pull, hf]
    | cons p rest =>
      cases p with
      | ready v => simp [TimeoutAt.poll, pull]
      | pending => by_cases hf : Timer.fired delayA now <;> simp [TimeoutAt.poll, pull, hf]
  · intro s' h
    cases futA with
    | nil =>
      by_cases hf : Timer.fired delayA now <;> simp [TimeoutAt.poll, pull, hf] at h ⊢
    | cons p rest =>
      cases p with
      | ready v => simp [TimeoutAt.poll, pull] at h
      | pending =>
        by_cases hf : Timer.fired delayA now <;> simp [TimeoutAt.poll, pull, hf] at h ⊢

/-- Witness for C1: concrete instances of the three behaviours (success past
the deadline for `Timeout` and for `TimeoutAt`, and the error precondition),
obtained by applying `c1_timeout_first_resolution_wins`. -/
theorem c1_witness :
    Timeout.poll (⟨[.ready 5], Timer.atDeadline 0, false⟩ : Timeout Nat) 3
        = some (.ready (.ok 5), ⟨[], Timer.atDeadline 0, true⟩) ∧
    ((pull ([Poll.pending] : List (Poll Nat))).1 = .pending ∧
      (Timer.atDeadline 0).fired 3 = true) ∧
    TimeoutAt.poll (⟨[.ready 5], Timer.atDeadline 0⟩ : TimeoutAt Nat) 3
        = (.ready (.ok 5), ⟨[], Timer.atDeadline 0⟩) := by
  refine ⟨?_, ?_, ?_⟩
  · exact (c1_timeout_first_resolution_wins Nat ⟨[.ready 5], Timer.atDeadline 0, false⟩
      ⟨[], Timer.atDeadline 0⟩ 3 rfl).1.1 5 [] rfl
  · exact (c1_timeout_first_resolution_wins Nat ⟨[.pending], Timer.atDeadline 0, false⟩
      ⟨[], Timer.atDeadline 0⟩ 3 rfl).1.2.2 ⟨[], Timer.atDeadline 0, true⟩ rfl
  · exact (c1_timeout_first_resolution_wins Nat ⟨[], Timer.atDeadline 0, false⟩
      ⟨[.ready 5], Timer.atDeadline 0⟩ 3 rfl).2.1 5 [] rfl

/-- C2 counterexample: the future `TimeoutAt` is *not* terminal after
delivering a `TimedOut` failure. With deadline `0` and a wrapped future that
answers pending then ready `42`, the first poll at instant `0` delivers the
`TimedOut` error, and the very next poll polls the wrapped future again and
delivers a success — contradicting "once it has delivered a TimedOut failure
... no subsequent poll yields another item, success value, or error". -/
theorem c2_counterexample :
    (TimeoutAt.poll (⟨[.pending, .ready 42], Timer.atDeadline 0⟩ : TimeoutAt Nat) 0).1
        = .ready (.error ()) ∧
    (TimeoutAt.poll
        (TimeoutAt.poll (⟨[.pending, .ready 42], Timer.atDeadline 0⟩ : TimeoutAt Nat) 0).2
        0).1
      = .ready (.ok 42) := by
  exact ⟨rfl, rfl⟩

/-- C2 amended: only the future `Timeout` combinator reaches a terminal state
after delivering a `TimedOut` failure: the poll that delivers the error sets
its `completed` flag, and every subsequent poll panics instead of yielding a
value. (Future `TimeoutAt` and the stream `Timeout`/`TimeoutAt` keep no
terminal state and can yield further results, as the counterexample shows.) -/
theorem c2_amended_future_timeout_terminal (α : Type) (s : Timeout α) (now : Nat)
    (s' : Timeout α) (h : Timeout.poll s now = some (.ready (.error ()), s')) :
    s'.completed = true ∧ ∀ now2, Timeout.poll s' now2 = none := by
  obtain ⟨fut, delay, completed⟩ := s
  cases completed with
  | true => simp [Timeout.poll] at h
  | false =>
    have hs' : s'.completed = true := by
      cases fut with
      | nil =>
        by_cases hf : Timer.fired delay now <;> simp [Timeout.poll, pull, hf] at h
        simp [← h]
      | cons p rest =>
        cases p with
        | ready v => simp [Timeout.poll, pull] at h
        | pending =>
          by_cases hf : Timer.fired delay now <;> simp [Timeout.poll, pull, hf] at h
          simp [← h]
    exact ⟨hs', fun now2 => by simp [Timeout.poll, hs']⟩

/-- Witness for C2's amended theorem: a timeout at deadline `0` over a
pending future delivers the error at instant `0`; the resulting state is
completed and every further poll panics. -/
theorem c2_witness :
    (⟨[], Timer.atDeadline 0, true⟩ : Timeout Nat).completed = true ∧
    Timeout.poll (⟨[], Timer.atDeadline 0, true⟩ : Timeout Nat) 7 = none := by
  have h := c2_amended_future_timeout_terminal Nat ⟨[.pending], Timer.atDeadline 0, false⟩ 0
    ⟨[], Timer.atDeadline 0, true⟩ rfl
  exact ⟨h.1, h.2 7⟩

/-- C3 counterexample: for the stream `TimeoutAt`, a successful item does
*not* give the next item a fresh full time budget. With absolute deadline
`5`, a poll at instant `10` that yields an item rearms the timer at the same
deadline `5`, so the immediately following poll (same instant, source
pending) already delivers `TimedOut` — the next item's budget is zero, not
fresh. -/
theorem c3_counterexample :
    (StreamTimeoutAt.poll_next
        (⟨[.ready (some 1), .pending], Timer.atDeadline 5, 5⟩ : StreamTimeoutAt Nat) 10).1
      = .ready (some (.ok 1)) ∧
    (StreamTimeoutAt.poll_next
        (StreamTimeoutAt.poll_next
          (⟨[.ready (some 1), .pending], Timer.atDeadline 5, 5⟩ : StreamTimeoutAt Nat) 10).2
        10).1
      = .ready (some (.error ())) := by
  exact ⟨rfl, rfl⟩

/-- C3 amended: on every poll that yields a successful item the deadline
timer is rearmed, but the two combinators rearm differently: the stream
`Timeout` arms `Timer::after(duration)` measured from now, so the next item
gets a fresh full budget; the stream `TimeoutAt` re-arms `Timer::at` the
*same original absolute deadline*, so once that deadline has passed there is
no fresh budget. For both, exhaustion of the wrapped stream ends the
sequence normally (`ready none`, never a `TimedOut` error on that poll). -/
theorem c3_amended_rearm_semantics (α : Type) (sT : StreamTimeout α)
    (sA : StreamTimeoutAt α) (now : Nat) :
    (∀ v rest, sT.stream = .ready (some v) :: rest →
      StreamTimeout.poll_next sT now
        = (.ready (some (.ok v)),
            { sT with stream := rest, delay := Timer.after now sT.duration })) ∧
    (∀ rest, sT.stream = .ready none :: rest →
      StreamTimeout.poll_next sT now
        = (.ready none, { sT with stream := rest, delay := Timer.after now sT.duration })) ∧
    (∀ v rest, sA.stream = .ready (some v) :: rest →
      StreamTimeoutAt.poll_next sA now
        = (.ready (some (.ok v)),
            { sA with stream := rest, delay := Timer.atDeadline sA.deadline })) ∧
    (∀ rest, sA.stream = .ready none :: rest →
      StreamTimeoutAt.poll_next sA now
        = (.ready none, { sA with stream := rest, delay := Timer.atDeadline sA.deadline })) := by
  obtain ⟨st, d, du⟩ := sT
  obtain ⟨sta, da, dla⟩ := sA
  refine ⟨?_, ?_, ?_, ?_⟩
  · intro v rest h
    simp only at h
    subst h
    simp [StreamTimeout.poll_next, pull]
  · intro rest h
    simp only at h
    subst h
    simp [StreamTimeout.poll_next, pull]
  · intro v rest h
    simp only at h
    subst h
    simp [StreamTimeoutAt.poll_next, pull]
  · intro rest h
    simp only at h
    subst h
    simp [StreamTimeoutAt.poll_next, pull]

/-- Witness for C3's amended theorem at concrete states: the relative
variant grants a fresh budget (`Timer.after`), the absolute variant re-arms
at deadline `5`, and both end normally on exhaustion. -/
theorem c3_witness :
    StreamTimeout.poll_next (⟨[.ready (some 4)], Timer.atDeadline 0, 9⟩ : StreamTimeout Nat) 10
        = (.ready (some (.ok 4)), ⟨[], Timer.after 10 9, 9⟩) ∧
    StreamTimeout.poll_next (⟨[.ready none], Timer.atDeadline 0, 9⟩ : StreamTimeout Nat) 10
        = (.ready none, ⟨[], Timer.after 10 9, 9⟩) ∧
    StreamTimeoutAt.poll_next
        (⟨[.ready (some 4)], Timer.atDeadline 5, 5⟩ : StreamTimeoutAt Nat) 10
      = (.ready (some (.ok 4)), ⟨[], Timer.atDeadline 5, 5⟩) ∧
    StreamTimeoutAt.poll_next (⟨[.ready none], Timer.atDeadline 5, 5⟩ : StreamTimeoutAt Nat) 10
      = (.ready none, ⟨[], Timer.atDeadline 5, 5⟩) := by
  refine ⟨?_, ?_, ?_, ?_⟩
  · exact (c3_amended_rearm_semantics Nat ⟨[.ready (some 4)], Timer.atDeadline 0, 9⟩
      ⟨[], Timer.atDeadline 5, 5⟩ 10).1 4 [] rfl
  · exact (c3_amended_rearm_semantics Nat ⟨[.ready none], Timer.atDeadline 0, 9⟩
      ⟨[], Timer.atDeadline 5, 5⟩ 10).2.1 [] rfl
  · exact (c3_amended_rearm_semantics Nat ⟨[], Timer.atDeadline 0, 9⟩
      ⟨[.ready (some 4)], Timer.atDeadline 5, 5⟩ 10).2.2.1 4 [] rfl
  · exact (c3_amended_rearm_semantics Nat ⟨[], Timer.atDeadline 0, 9⟩
      ⟨[.ready none], Timer.atDeadline 5, 5⟩ 10).2.2.2 [] rfl

/-- C4 counterexample: with a zero boundary duration, a Debounce poll on
which the source yields an item emits that item on the very same poll: the
freshly armed `Timer::after(0)` is already fired when the code polls it.
This contradicts "for any boundary duration (including zero) ... reports
not-ready; an item is never emitted on the same poll in which it arrives". -/
theorem c4_counterexample :
    (Debounce.poll_next
        (⟨[.ready (some 7)], Timer.after 0 5, 0, none, false, false⟩ : Debounce Nat) 0).map
        (fun r => r.1)
      = some (.ready (some 7)) := by
  exact rfl

/-- C4 amended: for every Debounce with a *positive* boundary duration, on
every poll in which the wrapped source yields an item, Debounce stores that
item in the slot (replacing any previous value, last-item-wins), rearms the
quiet-period timer measured from now, and reports not-ready; with a zero
boundary the freshly armed timer fires immediately and the item is emitted
on the same poll. -/
theorem c4_amended_positive_boundary (α : Type) (s : Debounce α) (now : Nat) (v : α)
    (rest : List (Poll (Option α))) (hdone : s.done = false) (hex : s.exhausted = false)
    (hb : 0 < s.boundary) (hstream : s.stream = .ready (some v) :: rest) :
    Debounce.poll_next s now
      = some (.pending,
          { s with stream := rest, timer := Timer.after now s.boundary, slot := some v }) := by
  obtain ⟨st, tm, bd, slot, ex, dn⟩ := s
  simp only at hdone hex hb hstream
  subst hdone hex hstream
  have hfired : Timer.fired (Timer.after now bd) now = false := by
    simp [Timer.fired, Timer.after]
    omega
  simp [Debounce.poll_next, pull, hfired]

/-- Witness for C4's amended theorem: boundary `3`, an item arriving at
instant `10` over a previously filled slot is stored (replacing the old
value), the timer is rearmed to fire at `13`, and the poll reports pending. -/
theorem c4_witness :
    Debounce.poll_next
        (⟨[.ready (some 7), .pending], Timer.after 0 3, 3, some 6, false, false⟩ :
          Debounce Nat) 10
      = some (.pending, ⟨[.pending], Timer.after 10 3, 3, some 7, false, false⟩) := by
  exact c4_amended_positive_boundary Nat
    ⟨[.ready (some 7), .pending], Timer.after 0 3, 3, some 6, false, false⟩ 10 7 [.pending]
    rfl rfl (by decide) rfl

/-- C5: when Debounce observes the wrapped source's exhaustion on a poll:
if the slot holds a value, that value is emitted exactly once on that poll
(the slot is cleared) and the next poll reports exhaustion; if the slot is
empty, exhaustion is reported immediately on that poll; and on any poll
where the quiet-period timer fires while the slot is empty, Debounce
reports not-ready and emits nothing. -/
theorem c5_debounce_exhaustion_and_empty_slot (α : Type) (s : Debounce α) (now : Nat)
    (hdone : s.done = false) (hex : s.exhausted = false) :
    (∀ v rest, s.stream = .ready none :: rest → s.slot = some v →
      Debounce.poll_next s now
          = some (.ready (some v), { s with stream := rest, slot := none, exhausted := true }) ∧
      ∀ now2,
        Debounce.poll_next { s with stream := rest, slot := none, exhausted := true } now2
          = some (.ready none,
              { s with stream := rest, slot := none, exhausted := true, done := true })) ∧
    (∀ rest, s.stream = .ready none :: rest → s.slot = none →
      Debounce.poll_next s now
        = some (.ready none, { s with stream := rest, exhausted := true, done := true })) ∧
    (∀ rest, s.stream = .pending :: rest → s.slot = none → s.timer.fired now = true →
      Debounce.poll_next s now = some (.pending, { s with stream := rest })) := by
  obtain ⟨st, tm, bd, slot, ex, dn⟩ := s
  simp only at hdone hex
  subst hdone hex
  refine ⟨?_, ?_, ?_⟩
  · intro v rest hstream hslot
    simp only at hstream hslot
    subst hstream hslot
    constructor
    · simp [Debounce.poll_next, pull]
    · intro now2
      simp [Debounce.poll_next]
  · intro rest hstream hslot
    simp only at hstream hslot
    subst hstream hslot
    simp [Debounce.poll_next, pull]
  · intro rest hstream hslot hfired
    simp only at hstream hslot
    subst hstream hslot
    simp [Debounce.poll_next, pull, hfired]

/-- Witness for C5: a debounce whose source reports exhaustion with `9` in
the slot flushes `9` on that poll and reports exhaustion on the next; with
an empty slot it ends immediately; and a fired timer over an empty slot
yields pending. -/
theorem c5_witness :
    Debounce.poll_next
        (⟨[.ready none], Timer.after 0 3, 3, some 9, false, false⟩ : Debounce Nat) 10
      = some (.ready (some 9), ⟨[], Timer.after 0 3, 3, none, true, false⟩) ∧
    Debounce.poll_next (⟨[], Timer.after 0 3, 3, none, true, false⟩ : Debounce Nat) 11
      = some (.ready none, ⟨[], Timer.after 0 3, 3, none, true, true⟩) ∧
    Debounce.poll_next
        (⟨[.ready none], Timer.after 0 3, 3, none, false, false⟩ : Debounce Nat) 10
      = some (.ready none, ⟨[], Timer.after 0 3, 3, none, true, true⟩) ∧
    Debounce.poll_next
        (⟨[.pending], Timer.after 0 3, 3, none, false, false⟩ : Debounce Nat) 10
      = some (.pending, ⟨[], Timer.after 0 3, 3, none, false, false⟩) := by
  have h := c5_debounce_exhaustion_and_empty_slot Nat
    ⟨[.ready none], Timer.after 0 3, 3, some 9, false, false⟩ 10 rfl rfl
  have h2 := c5_debounce_exhaustion_and_empty_slot Nat
    ⟨[.ready none], Timer.after 0 3, 3, none, false, false⟩ 10 rfl rfl
  have h3 := c5_debounce_exhaustion_and_empty_slot Nat
    ⟨[.pending], Timer.after 0 3, 3, none, false, false⟩ 10 rfl rfl
  exact ⟨(h.1 9 [] rfl rfl).1, (h.1 9 [] rfl rfl).2 11, h2.2.1 [] rfl rfl,
    h3.2.2 [] rfl rfl (by decide)⟩

/-- C7: for the `Delay` combinators, on every poll made while the deadline
has not yet resolved, the combinator reports not-ready and the wrapped
source/future is never polled (its script is unchanged in the result
state); the deadline is polled on every call of the future `Delay`
(in particular at least once before the wrapped value is delivered — a
delivery poll always sees the deadline poll ready, so there is no fast-path
skip even for an already-resolved future under a zero-length deadline); and
the stream `Delay` starts in the `Timer` state, whose pending-timer polls
leave the whole state (including the wrapped stream) untouched. -/
theorem c7_delay_gates_wrapped_source (α : Type) (sF : Delay α) (sS : StreamDelay α)
    (stream0 : List (Poll (Option α))) (now dur : Nat) (hc : sF.completed = false) :
    ((pull sF.deadline).1 = .pending →
      Delay.poll sF = some (.pending, { sF with deadline := (pull sF.deadline).2 })) ∧
    ((Delay.poll sF).map (fun r => r.2.deadline) = some (pull sF.deadline).2) ∧
    (∀ v s', Delay.poll sF = some (.ready v, s') → (pull sF.deadline).1 = .ready ()) ∧
    ((StreamDelay.new stream0 now dur).state = .timer) ∧
    (sS.state = .timer → sS.timer.fired now = false →
      StreamDelay.poll_next sS now = (.pending, sS)) := by
  obtain ⟨fut, dl, completed⟩ := sF
  simp only at hc
  subst hc
  refine ⟨?_, ?_, ?_, rfl, ?_⟩
  · intro hdl
    cases dl with
    | nil => simp [Delay.poll, pull]
    | cons p rest =>
      cases p with
      | ready u => simp [pull] at hdl
      | pending => simp [Delay.poll, pull]
  · cases dl with
    | nil => simp [Delay.poll, pull]
    | cons p rest =>
      cases p with
      | ready u =>
        cases fut with
        | nil => simp [Delay.poll, pull]
        | cons q frest => cases q <;> simp [Delay.poll, pull]
      | pending => simp [Delay.poll, pull]
  · intro v s' h
    cases dl with
    | nil => simp [Delay.poll, pull] at h
    | cons p rest =>
      cases p with
      | ready u => simp [pull]
      | pending => simp [Delay.poll, pull] at h
  · intro hst hfired
    obtain ⟨st, tm, state⟩ := sS
    simp only at hst
    subst hst
    simp [StreamDelay.poll_next, hfired]

/-- Witness for C7: with a pending deadline the future `Delay` returns
pending without consuming the wrapped (already ready) future's script; a
delivery poll sees the deadline ready; the stream `Delay` starts gating and
leaves everything untouched while its timer is pending. -/
theorem c7_witness :
    Delay.poll (⟨[.ready 3], [.pending], false⟩ : Delay Nat)
        = some (.pending, ⟨[.ready 3], [], false⟩) ∧
    (Delay.poll (⟨[.ready 3], [.ready ()], false⟩ : Delay Nat)).map
        (fun r => r.2.deadline) = some [] ∧
    (pull ([Poll.ready ()] : List (Poll Unit))).1 = .ready () ∧
    (StreamDelay.new ([.ready (some 1)] : List (Poll (Option Nat))) 0 5).state = .timer ∧
    StreamDelay.poll_next
        (⟨[.ready (some 1)], Timer.after 0 5, .timer⟩ : StreamDelay Nat) 2
      = (.pending, ⟨[.ready (some 1)], Timer.after 0 5, .timer⟩) := by
  have h1 := c7_delay_gates_wrapped_source Nat ⟨[.ready 3], [.pending], false⟩
    ⟨[.ready (some 1)], Timer.after 0 5, .timer⟩ [.ready (some 1)] 0 5 rfl
  have h2 := c7_delay_gates_wrapped_source Nat ⟨[.ready 3], [.ready ()], false⟩
    ⟨[.ready (some 1)], Timer.after 0 5, .timer⟩ [.ready (some 1)] 2 5 rfl
  exact ⟨h1.1 rfl, h2.2.1, h2.2.2.1 3 ⟨[], [], true⟩ rfl, h1.2.2.2.1,
    h2.2.2.2.2 rfl (by decide)⟩

/-- C8, evaluation at the failing input: the future `Delay` does *not* latch
its deadline. Deadline script `[ready, pending]`, wrapped future
`[pending, ready 7]`: the first poll resolves the deadline but finds the
future pending; the claim then promises that the deadline is never re-polled
and every later poll passes through to the wrapped future (which would give
`ready 7`). Instead the second poll consumes the deadline script again (it
shrinks from `[pending]` to `[]`) and returns pending with the wrapped
future's script untouched. With the crate's own deadline future (`Sleep`,
the `IntoFuture` of `Duration`), that re-poll trips
`assert!(!self.completed)`: the third conjunct shows a completed `Sleep`
panics when polled again, as after `sleep 0 0`'s first poll. -/
theorem c8_failing_input_no_deadline_latch :
    Delay.poll (⟨[.pending, .ready 7], [.ready (), .pending], false⟩ : Delay Nat)
        = some (.pending, ⟨[.ready 7], [.pending], false⟩) ∧
    Delay.poll (⟨[.ready 7], [.pending], false⟩ : Delay Nat)
        = some (.pending, ⟨[.ready 7], [], false⟩) ∧
    Sleep.poll (sleep 0 0) 0 = some (.ready 0, ⟨Timer.after 0 0, true, 0⟩) ∧
    Sleep.poll (⟨Timer.after 0 0, true, 0⟩ : Sleep) 1 = none := by
  exact ⟨rfl, rfl, rfl, rfl⟩

/-- C9 counterexample: not every combinator panics when polled after
completion. The future `TimeoutAt` keeps no terminal state: after
delivering its output (`ok 1`) at instant `0` under deadline `0`, polling
it again returns an ordinary value (here a `TimedOut` error, since it polls
the wrapped future again and then its fired timer) instead of triggering a
fatal assertion. -/
theorem c9_counterexample :
    (TimeoutAt.poll (⟨[.ready 1, .pending], Timer.atDeadline 0⟩ : TimeoutAt Nat) 0).1
        = .ready (.ok 1) ∧
    (TimeoutAt.poll
        (TimeoutAt.poll (⟨[.ready 1, .pending], Timer.atDeadline 0⟩ : TimeoutAt Nat) 0).2
        0).1
      = .ready (.error ()) := by
  exact ⟨rfl, rfl⟩

/-- C9 amended: exactly the combinators that track a terminal state panic
when polled after completion — the future `Timeout` (`completed`), the
future `Delay` (`completed`), `Sleep` (`completed`), `Debounce` (`done`),
`Throttle` (`AllDone`) and `Park` (`Completed`). The future `TimeoutAt` and
the stream `Timeout`/`TimeoutAt`/`Delay`/`DelayUntil` track no terminal
state and simply poll their wrapped value again. -/
theorem c9_amended_terminal_panics (α : Type) (s1 : Timeout α) (s2 : Delay α)
    (s3 : Debounce α) (s4 : Throttle α) (s5 : Park α) (s6 : Sleep) (now : Nat)
    (h1 : s1.completed = true) (h2 : s2.completed = true) (h3 : s3.done = true)
    (h4 : s4.state = .allDone) (h5 : s5.state = .completed) (h6 : s6.completed = true) :
    Timeout.poll s1 now = none ∧ Delay.poll s2 = none ∧
    Debounce.poll_next s3 now = none ∧ Throttle.poll_next s4 = none ∧
    Park.poll s5 = none ∧ Sleep.poll s6 now = none := by
  refine ⟨?_, ?_, ?_, ?_, ?_, ?_⟩
  · simp [Timeout.poll, h1]
  · simp [Delay.poll, h2]
  · simp [Debounce.poll_next, h3]
  · simp [Throttle.poll_next, h4]
  · simp [Park.poll, h5]
  · simp [Sleep.poll, h6]

/-- Witness for C9's amended theorem at concrete completed states. -/
theorem c9_witness :
    Timeout.poll (⟨[], Timer.atDeadline 0, true⟩ : Timeout Nat) 5 = none ∧
    Delay.poll (⟨[], [], true⟩ : Delay Nat) = none ∧
    Debounce.poll_next (⟨[], Timer.atDeadline 0, 1, none, true, true⟩ : Debounce Nat) 5
        = none ∧
    Throttle.poll_next (⟨[], [], .allDone, 1⟩ : Throttle Nat) = none ∧
    Park.poll (⟨[], [], .completed⟩ : Park Nat) = none ∧
    Sleep.poll (⟨Timer.atDeadline 0, true, 0⟩ : Sleep) 5 = none := by
  exact c9_amended_terminal_panics Nat ⟨[], Timer.atDeadline 0, true⟩ ⟨[], [], true⟩
    ⟨[], Timer.atDeadline 0, 1, none, true, true⟩ ⟨[], [], .allDone, 1⟩ ⟨[], [], .completed⟩
    ⟨Timer.atDeadline 0, true, 0⟩ 5 rfl rfl rfl rfl rfl rfl

/-- Helper for C10: from the `Suspended` state, as long as every receiver
response is "channel open but empty" or a `Park` token, every poll returns
pending, consumes exactly one receiver response, leaves the wrapped future's
script untouched and stays `Suspended`. -/
theorem park_suspended_run (α : Type) (n : Nat) (f : List (Poll α))
    (r : List (Poll (Option Parker))) (hq : ∀ p ∈ r, quietPoll p = true) :
    Park.runOuts ⟨f, r, .suspended⟩ n
      = (List.replicate n .pending, some ⟨f, r.drop n, .suspended⟩) := by
  induction n generalizing r with
  | zero => simp [Park.runOuts]
  | succ n ih =>
    cases r with
    | nil =>
      have h0 : ∀ p ∈ ([] : List (Poll (Option Parker))), quietPoll p = true := by simp
      simp only [Park.runOuts, Park.poll, pull]
      rw [ih [] h0]
      simp [List.replicate_succ]
    | cons p rest =>
      have hp : quietPoll p = true := hq p (List.mem_cons_self _ _)
      have hrest : ∀ q ∈ rest, quietPoll q = true := fun q hm => hq q (List.mem_cons_of_mem _ hm)
      cases p with
      | pending =>
        simp only [Park.runOuts, Park.poll, pull]
        rw [ih rest hrest]
        simp [List.replicate_succ]
      | ready o =>
        cases o with
        | none => simp [quietPoll] at hp
        | some pk =>
          cases pk with
          | unpark => simp [quietPoll] at hp
          | park =>
            simp only [Park.runOuts, Park.poll, pull]
            rw [ih rest hrest]
            simp [List.replicate_succ]

/-- C10: the `Park` wrapper is constructed in the `Suspended` state, and from
creation the wrapped future is never polled — its script is intact after any
number of polls — as long as each poll of the channel finds it empty-but-open
(pending) or yields a `Park` token; every such poll just returns not-ready
and consumes one receiver response, and the wrapper is still `Suspended`
afterwards. -/
theorem c10_park_starts_suspended (α : Type) (n : Nat) (f : List (Poll α))
    (r : List (Poll (Option Parker))) (hq : ∀ p ∈ r, quietPoll p = true) :
    (Park.new f r).state = .suspended ∧
    Park.runOuts (Park.new f r) n
      = (List.replicate n .pending, some ⟨f, r.drop n, .suspended⟩) := by
  exact ⟨rfl, park_suspended_run α n f r hq⟩

/-- Witness for C10: three polls of a freshly parked future over a channel
that answers pending then a `Park` token (then nothing): all polls pending,
the wrapped future's script untouched, state still `Suspended`. -/
theorem c10_witness :
    (Park.new [Poll.ready 42] [Poll.pending, Poll.ready (some Parker.park)]).state
        = ParkState.suspended ∧
    Park.runOuts (Park.new [Poll.ready 42] [Poll.pending, Poll.ready (some Parker.park)]) 3
      = ([.pending, .pending, .pending], some ⟨[.ready 42], [], .suspended⟩) := by
  have h := c10_park_starts_suspended Nat 3 [.ready 42]
    [.pending, .ready (some .park)] (by decide)
  exact ⟨h.1, h.2⟩

/-- Helper for C6: draining with the window budget (one) already used up
lets no further item through — the counter and slot are unchanged; the
stream script is still advanced past the consumed entries. -/
theorem throttleDrain_saturated (α : Type) (script : List (Poll (Option α)))
    (c : Nat) (slot : Option α) (hc : 1 ≤ c) :
    throttleDrain 1 c slot script = (afterDrain script, c, slot, consumedDone script) := by
  induction script with
  | nil => simp [throttleDrain, afterDrain, consumedDone]
  | cons p rest ih =>
    cases p with
    | pending => simp [throttleDrain, afterDrain, consumedDone]
    | ready o =>
      cases o with
      | none => simp [throttleDrain, afterDrain, consumedDone]
      | some v =>
        have hnot : ¬ c < 1 := by omega
        simp [throttleDrain, afterDrain, consumedDone, hnot, ih]

/-- Helper for C6: draining a fresh window (counter `0`, empty slot) with
budget `1` keeps exactly the *first* arriving item in the slot and bumps the
counter iff an item arrived. -/
theorem throttleDrain_fresh (α : Type) (script : List (Poll (Option α))) :
    throttleDrain 1 0 none script
      = (afterDrain script, if (consumedItems script).isEmpty then 0 else 1,
          (consumedItems script).head?, consumedDone script) := by
  cases script with
  | nil => simp [throttleDrain, afterDrain, consumedItems, consumedDone]
  | cons p rest =>
    cases p with
    | pending => simp [throttleDrain, afterDrain, consumedItems, consumedDone]
    | ready o =>
      cases o with
      | none => simp [throttleDrain, afterDrain, consumedItems, consumedDone]
      | some v =>
        simp [throttleDrain, afterDrain, consumedItems, consumedDone,
          throttleDrain_saturated α rest 1 (some v) (by omega)]

/-- Helper for C6: a throttle in state `AllDone` contributes nothing to a
window (its poll panics). -/
theorem windowRun_allDone (α : Type) (n : Nat) (s : Throttle α)
    (h : s.state = .allDone) : windowRun s n = ([], [], none) := by
  cases n with
  | zero => simp [windowRun]
  | succ n => simp [windowRun, Throttle.poll_next, h]

/-- Helper for C6: a throttle in state `StreamDone` emits no further item —
it yields the closing end-of-stream and then panics, so the window trace is
empty. -/
theorem windowRun_streamDone (α : Type) (n : Nat) (s : Throttle α)
    (h : s.state = .streamDone) : windowRun s n = ([], [], none) := by
  cases n with
  | zero => simp [windowRun]
  | succ n =>
    have hpoll : Throttle.poll_next s = some (.ready none, { s with state := .allDone }) := by
      simp [Throttle.poll_next, h]
    simp [windowRun, hpoll, tickSeen, arrivals, h,
      windowRun_allDone α n { s with state := .allDone } rfl]

/-- Helper for C6: once the window's budget of one is used up
(counter `m + 1`), the throttle emits nothing more until the window closes;
the state after the closing tick-poll is again `Streaming 0` (or
`StreamDone` if the source meanwhile exhausted). -/
theorem windowRun_saturated (α : Type) (n : Nat) :
    ∀ (s : Throttle α) (m : Nat), s.budget = 1 → s.state = .streaming (m + 1) →
      (windowRun s n).2.1 = [] ∧
      ∀ s', (windowRun s n).2.2 = some s' →
        s'.budget = 1 ∧ (s'.state = .streaming 0 ∨ s'.state = .streamDone) := by
  induction n with
  | zero =>
    intro s m hb hs
    simp [windowRun]
  | succ n ih =>
    intro s m hb hs
    obtain ⟨st, iv, state, bdg⟩ := s
    simp only at hb hs
    subst hb hs
    have hdrain := throttleDrain_saturated α st (m + 1) none (by omega)
    cases hdone : consumedDone st with
    | true =>
      cases iv with
      | nil =>
        have hpoll : Throttle.poll_next ⟨st, [], .streaming (m + 1), 1⟩
            = some (.pending, ⟨afterDrain st, [], .streamDone, 1⟩) := by
          simp [Throttle.poll_next, hdrain, hdone, pull]
        simp [windowRun, hpoll, tickSeen, arrivals,
          windowRun_streamDone α n ⟨afterDrain st, [], .streamDone, 1⟩ rfl]
      | cons p ivr =>
        cases p with
        | pending =>
          have hpoll : Throttle.poll_next ⟨st, .pending :: ivr, .streaming (m + 1), 1⟩
              = some (.pending, ⟨afterDrain st, ivr, .streamDone, 1⟩) := by
            simp [Throttle.poll_next, hdrain, hdone, pull]
          simp [windowRun, hpoll, tickSeen, arrivals,
            windowRun_streamDone α n ⟨afterDrain st, ivr, .streamDone, 1⟩ rfl]
        | ready u =>
          have hpoll : Throttle.poll_next ⟨st, .ready u :: ivr, .streaming (m + 1), 1⟩
              = some (.pending, ⟨afterDrain st, ivr, .streamDone, 1⟩) := by
            simp [Throttle.poll_next, hdrain, hdone, pull]
          constructor
          · simp [windowRun, hpoll, tickSeen, arrivals]
          · intro s' hmem
            simp [windowRun, hpoll, tickSeen, arrivals] at hmem
            subst hmem
            exact ⟨rfl, Or.inr rfl⟩
    | false =>
      cases iv with
      | nil =>
        have hpoll : Throttle.poll_next ⟨st, [], .streaming (m + 1), 1⟩
            = some (.pending, ⟨afterDrain st, [], .streaming (m + 1), 1⟩) := by
          simp [Throttle.poll_next, hdrain, hdone, pull]
        have hrec := ih ⟨afterDrain st, [], .streaming (m + 1), 1⟩ m rfl rfl
        constructor
        · simp [windowRun, hpoll, tickSeen, arrivals, hrec.1]
        · intro s' hmem
          simp [windowRun, hpoll, tickSeen, arrivals] at hmem
          exact hrec.2 s' hmem
      | cons p ivr =>
        cases p with
        | pending =>
          have hpoll : Throttle.poll_next ⟨st, .pending :: ivr, .streaming (m + 1), 1⟩
              = some (.pending, ⟨afterDrain st, ivr, .streaming (m + 1), 1⟩) := by
            simp [Throttle.poll_next, hdrain, hdone, pull]
          have hrec := ih ⟨afterDrain st, ivr, .streaming (m + 1), 1⟩ m rfl rfl
          constructor
          · simp [windowRun, hpoll, tickSeen, arrivals, hrec.1]
          · intro s' hmem
            simp [windowRun, hpoll, tickSeen, arrivals] at hmem
            exact hrec.2 s' hmem
        | ready u =>
          have hpoll : Throttle.poll_next ⟨st, .ready u :: ivr, .streaming (m + 1), 1⟩
              = some (.pending, ⟨afterDrain st, ivr, .streaming 0, 1⟩) := by
            simp [Throttle.poll_next, hdrain, hdone, pull]
          constructor
          · simp [windowRun, hpoll, tickSeen, arrivals]
          · intro s' hmem
            simp [windowRun, hpoll, tickSeen, arrivals] at hmem
            subst hmem
            exact ⟨rfl, Or.inl rfl⟩

/-- Helper for C6, the main window invariant: starting a window with counter
`0` and budget `1`, the items the throttle emits during the window are
exactly the first (at most one) of the items that arrive during the window;
after the window closes the throttle is again at `Streaming 0` (or
`StreamDone` if the source exhausted). -/
theorem windowRun_fresh (α : Type) (n : Nat) :
    ∀ (s : Throttle α), s.budget = 1 → s.state = .streaming 0 →
      (windowRun s n).2.1 = (windowRun s n).1.take 1 ∧
      ∀ s', (windowRun s n).2.2 = some s' →
        s'.budget = 1 ∧ (s'.state = .streaming 0 ∨ s'.state = .streamDone) := by
  induction n with
  | zero =>
    intro s hb hs
    simp [windowRun]
  | succ n ih =>
    intro s hb hs
    obtain ⟨st, iv, state, bdg⟩ := s
    simp only at hb hs
    subst hb hs
    have hdrain := throttleDrain_fresh α st
    cases hitems : consumedItems st with
    | nil =>
      cases hdone : consumedDone st with
      | true =>
        cases iv with
        | nil =>
          have hpoll : Throttle.poll_next ⟨st, [], .streaming 0, 1⟩
              = some (.pending, ⟨afterDrain st, [], .streamDone, 1⟩) := by
            simp [Throttle.poll_next, hdrain, hdone, hitems, pull]
          simp [windowRun, hpoll, tickSeen, arrivals, hitems,
            windowRun_streamDone α n ⟨afterDrain st, [], .streamDone, 1⟩ rfl]
        | cons p ivr =>
          cases p with
          | pending =>
            have hpoll : Throttle.poll_next ⟨st, .pending :: ivr, .streaming 0, 1⟩
                = some (.pending, ⟨afterDrain st, ivr, .streamDone, 1⟩) := by
              simp [Throttle.poll_next, hdrain, hdone, hitems, pull]
            simp [windowRun, hpoll, tickSeen, arrivals, hitems,
              windowRun_streamDone α n ⟨afterDrain st, ivr, .streamDone, 1⟩ rfl]
          | ready u =>
            have hpoll : Throttle.poll_next ⟨st, .ready u :: ivr, .streaming 0, 1⟩
                = some (.pending, ⟨afterDrain st, ivr, .streamDone, 1⟩) := by
              simp [Throttle.poll_next, hdrain, hdone, hitems, pull]
            constructor
            · simp [windowRun, hpoll, tickSeen, arrivals, hitems]
            · intro s' hmem
              simp [windowRun, hpoll, tickSeen, arrivals] at hmem
              subst hmem
              exact ⟨rfl, Or.inr rfl⟩
      | false =>
        cases iv with
        | nil =>
          have hpoll : Throttle.poll_next ⟨st, [], .streaming 0, 1⟩
              = some (.pending, ⟨afterDrain st, [], .streaming 0, 1⟩) := by
            simp [Throttle.poll_next, hdrain, hdone, hitems, pull]
          have hrec := ih ⟨afterDrain st, [], .streaming 0, 1⟩ rfl rfl
          constructor
          · simp [windowRun, hpoll, tickSeen, arrivals, hitems, hrec.1]
          · intro s' hmem
            simp [windowRun, hpoll, tickSeen, arrivals] at hmem
            exact hrec.2 s' hmem
        | cons p ivr =>
          cases p with
          | pending =>
            have hpoll : Throttle.poll_next ⟨st, .pending :: ivr, .streaming 0, 1⟩
                = some (.pending, ⟨afterDrain st, ivr, .streaming 0, 1⟩) := by
              simp [Throttle.poll_next, hdrain, hdone, hitems, pull]
            have hrec := ih ⟨afterDrain st, ivr, .streaming 0, 1⟩ rfl rfl
            constructor
            · simp [windowRun, hpoll, tickSeen, arrivals, hitems, hrec.1]
            · intro s' hmem
              simp [windowRun, hpoll, tickSeen, arrivals] at hmem
              exact hrec.2 s' hmem
          | ready u =>
            have hpoll : Throttle.poll_next ⟨st, .ready u :: ivr, .streaming 0, 1⟩
                = some (.pending, ⟨afterDrain st, ivr, .streaming 0, 1⟩) := by
              simp [Throttle.poll_next, hdrain, hdone, hitems, pull]
            constructor
            · simp [windowRun, hpoll, tickSeen, arrivals, hitems]
            · intro s' hmem
              simp [windowRun, hpoll, tickSeen, arrivals] at hmem
              subst hmem
              exact ⟨rfl, Or.inl rfl⟩
    | cons v vs =>
      cases hdone : consumedDone st with
      | true =>
        cases iv with
        | nil =>
          have hpoll : Throttle.poll_next ⟨st, [], .streaming 0, 1⟩
              = some (.ready (some v), ⟨afterDrain st, [], .streamDone, 1⟩) := by
            simp [Throttle.poll_next, hdrain, hdone, hitems, pull]
          simp [windowRun, hpoll, tickSeen, arrivals, hitems,
            windowRun_streamDone α n ⟨afterDrain st, [], .streamDone, 1⟩ rfl]
        | cons p ivr =>
          cases p with
          | pending =>
            have hpoll : Throttle.poll_next ⟨st, .pending :: ivr, .streaming 0, 1⟩
                = some (.ready (some v), ⟨afterDrain st, ivr, .streamDone, 1⟩) := by
              simp [Throttle.poll_next, hdrain, hdone, hitems, pull]
            simp [windowRun, hpoll, tickSeen, arrivals, hitems,
              windowRun_streamDone α n ⟨afterDrain st, ivr, .streamDone, 1⟩ rfl]
          | ready u =>
            have hpoll : Throttle.poll_next ⟨st, .ready u :: ivr, .streaming 0, 1⟩
                = some (.ready (some v), ⟨afterDrain st, ivr, .streamDone, 1⟩) := by
              simp [Throttle.poll_next, hdrain, hdone, hitems, pull]
            constructor
            · simp [windowRun, hpoll, tickSeen, arrivals, hitems]
            · intro s' hmem
              simp [windowRun, hpoll, tickSeen, arrivals] at hmem
              subst hmem
              exact ⟨rfl, Or.inr rfl⟩
      | false =>
        cases iv with
        | nil =>
          have hpoll : Throttle.poll_next ⟨st, [], .streaming 0, 1⟩
              = some (.ready (some v), ⟨afterDrain st, [], .streaming 1, 1⟩) := by
            simp [Throttle.poll_next, hdrain, hdone, hitems, pull]
          have hrec := windowRun_saturated α n ⟨afterDrain st, [], .streaming 1, 1⟩ 0 rfl rfl
          constructor
          · simp [windowRun, hpoll, tickSeen, arrivals, hitems, hrec.1]
          · intro s' hmem
            simp [windowRun, hpoll, tickSeen, arrivals] at hmem
            exact hrec.2 s' hmem
        | cons p ivr =>
          cases p with
          | pending =>
            have hpoll : Throttle.poll_next ⟨st, .pending :: ivr, .streaming 0, 1⟩
                = some (.ready (some v), ⟨afterDrain st, ivr, .streaming 1, 1⟩) := by
              simp [Throttle.poll_next, hdrain, hdone, hitems, pull]
            have hrec := windowRun_saturated α n ⟨afterDrain st, ivr, .streaming 1, 1⟩ 0 rfl rfl
            constructor
            · simp [windowRun, hpoll, tickSeen, arrivals, hitems, hrec.1]
            · intro s' hmem
              simp [windowRun, hpoll, tickSeen, arrivals] at hmem
              exact hrec.2 s' hmem
          | ready u =>
            have hpoll : Throttle.poll_next ⟨st, .ready u :: ivr, .streaming 0, 1⟩
                = some (.ready (some v), ⟨afterDrain st, ivr, .streaming 0, 1⟩) := by
              simp [Throttle.poll_next, hdrain, hdone, hitems, pull]
            constructor
            · simp [windowRun, hpoll, tickSeen, arrivals, hitems]
            · intro s' hmem
              simp [windowRun, hpoll, tickSeen, arrivals] at hmem
              subst hmem
              exact ⟨rfl, Or.inl rfl⟩

/-- C6: a `Throttle` is constructed with per-window budget `1` and counter
`0`; within each window (the polls up to and including the first poll that
observes an interval tick — the tick resets the counter for the *next*
window), the emitted items are exactly `take 1` of the items arriving in
that window: at most the budget of one item, and always the first item of
the window, never a later one. The state left after a window closes starts
the next window with counter `0` again (or is `StreamDone`), so the
property holds window after window. When the drain observes the source's
exhaustion the state becomes `StreamDone` — on that same poll any item the
drain buffered is still delivered (it is in the window's `take 1`) — and
the next poll delivers the closing end-of-stream exactly once, after which
polling panics. -/
theorem c6_throttle_leading_edge (α : Type) (n : Nat) (s : Throttle α)
    (st0 : List (Poll (Option α))) (iv0 : List (Poll (Option Unit)))
    (hb : s.budget = 1) (hs : s.state = .streaming 0) :
    ((Throttle.new st0 iv0).budget = 1 ∧ (Throttle.new st0 iv0).state = .streaming 0) ∧
    ((windowRun s n).2.1 = (windowRun s n).1.take 1 ∧
      ∀ s', (windowRun s n).2.2 = some s' →
        s'.budget = 1 ∧ (s'.state = .streaming 0 ∨ s'.state = .streamDone)) ∧
    (consumedDone s.stream = true →
      (Throttle.poll_next s).map (fun r => r.2.state) = some .streamDone) ∧
    (∀ t : Throttle α, t.state = .streamDone →
      Throttle.poll_next t = some (.ready none, { t with state := .allDone })) ∧
    (∀ t : Throttle α, t.state = .allDone → Throttle.poll_next t = none) := by
  refine ⟨⟨rfl, rfl⟩, windowRun_fresh α n s hb hs, ?_, ?_, ?_⟩
  · intro hdone
    obtain ⟨stm, iv, state, bdg⟩ := s
    simp only at hb hs hdone
    subst hb hs
    cases iv with
    | nil =>
      simp [Throttle.poll_next, throttleDrain_fresh, hdone, pull]
    | cons p ivr =>
      cases p with
      | pending => simp [Throttle.poll_next, throttleDrain_fresh, hdone, pull]
      | ready u => simp [Throttle.poll_next, throttleDrain_fresh, hdone, pull]
  · intro t ht
    simp [Throttle.poll_next, ht]
  · intro t ht
    simp [Throttle.poll_next, ht]

/-- Witness for C6: a source that bursts `10, 20` in the first poll and an
interval that ticks on the second poll: the window's arrivals are
`[10, 20]` and the emissions exactly `[10]` (the first item); the closing
state starts the next window at counter `0`; a drain that sees exhaustion
moves to `StreamDone`, the next poll yields the closing end-of-stream, and
a poll after that panics. -/
theorem c6_witness :
    (windowRun (Throttle.new
        ([.ready (some 10), .ready (some 20), .pending, .pending] : List (Poll (Option Nat)))
        [.pending, .ready (some ())]) 2).2.1
      = (windowRun (Throttle.new
        ([.ready (some 10), .ready (some 20), .pending, .pending] : List (Poll (Option Nat)))
        [.pending, .ready (some ())]) 2).1.take 1 ∧
    ((⟨[], [], .streaming 0, 1⟩ : Throttle Nat).budget = 1 ∧
      ((⟨[], [], .streaming 0, 1⟩ : Throttle Nat).state = .streaming 0 ∨
        (⟨[], [], .streaming 0, 1⟩ : Throttle Nat).state = .streamDone)) ∧
    (Throttle.poll_next
        (⟨[.ready (some 5), .ready none], [.pending], .streaming 0, 1⟩ : Throttle Nat)).map
        (fun r => r.2.state) = some .streamDone ∧
    Throttle.poll_next (⟨[], [], .streamDone, 1⟩ : Throttle Nat)
        = some (.ready none, ⟨[], [], .allDone, 1⟩) ∧
    Throttle.poll_next (⟨[], [], .allDone, 1⟩ : Throttle Nat) = none := by
  have h := c6_throttle_leading_edge Nat 2
    (Throttle.new [.ready (some 10), .ready (some 20), .pending, .pending]
      [.pending, .ready (some ())]) [] [] rfl rfl
  have hEx := c6_throttle_leading_edge Nat 1
    (⟨[.ready (some 5), .ready none], [.pending], .streaming 0, 1⟩ : Throttle Nat) [] []
    rfl rfl
  exact ⟨h.2.1.1, h.2.1.2 ⟨[], [], .streaming 0, 1⟩ rfl, hEx.2.2.1 rfl,
    hEx.2.2.2.1 ⟨[], [], .streamDone, 1⟩ rfl, hEx.2.2.2.2 ⟨[], [], .allDone, 1⟩ rfl⟩

end FuturesTime
